import Mathlib

set_option autoImplicit false

namespace TogetherModels

/-- A minimal JSON value model, used for the `pricing` field and for arbitrary
extra fields of a model record.  Mirrors the JSON values that can appear in the
Together.ai catalog records consumed by `together_models.py`.  Numbers are
modelled as integers (the claims under verification never depend on
floating-point formatting). -/
inductive Json where
  | null : Json
  | bool (b : Bool) : Json
  | num (n : Int) : Json
  | str (s : String) : Json
  | arr (xs : List Json) : Json
  | obj (fields : List (String × Json)) : Json

/-- A model record, as consumed by the script.  In the Python source a record
is a JSON dictionary read with `model_data.get(key, default)`; the data model
of the spec (§3) types the fields, which we mirror here: the five fields the
script reads are typed and optional (`none` = key absent, so that the default
of `.get` applies), and all remaining fields of the dictionary are kept in
`extra`. -/
structure ModelRecord where
  id : Option String := none
  display_name : Option String := none
  type : Option String := none
  context_length : Option Nat := none
  pricing : Option Json := none
  extra : List (String × Json) := []

/-- The list `AUTOCOMPLETE_MODELS` from `together_models.py`: the fixed allowlist of
models that should be assigned the `autocomplete` role. -/
def AUTOCOMPLETE_MODELS : List String :=
  [ "Meta Llama 3 8B Instruct Lite",
    "Meta Llama 3 8B Instruct Turbo",
    "Meta Llama 3.1 8B Instruct Turbo",
    "Meta Llama 3 8B Instruct Reference",
    "Gemma Instruct (2B)",
    "Gemma-2 Instruct (9B)",
    "Mistral (7B) Instruct v0.2",
    "Mistral (7B)" ]

/-- The characters deleted without replacement by the `re.sub` of the class
bracket/brace/paren in `sanitize_filename`. -/
def isBracketChar (c : Char) : Bool :=
  c = '[' || c = ']' || c = '\x7b' || c = '\x7d' || c = '(' || c = ')'

/-- A regex word character (`\w`), modelled over the ASCII range that the
display names of the catalog use: letters, digits and underscore. -/
def isWordChar (c : Char) : Bool :=
  c.isAlphanum || c = '_'

/-- Collapse every maximal run of the character `t` to a single occurrence,
modelling `re.sub(r't+', 't', ...)`. -/
def collapseRuns (t : Char) : List Char → List Char
  | [] => []
  | [c] => [c]
  | a :: b :: rest =>
      if a = t && b = t then collapseRuns t (b :: rest)
      else a :: collapseRuns t (b :: rest)

/-- Model of the Python `str.rstrip` over the set hyphen/underscore: drop
trailing hyphens and underscores. -/
def rstripDashUnderscore (l : List Char) : List Char :=
  (l.reverse.dropWhile (fun c => c = '-' || c = '_')).reverse

/-- The function `sanitize_filename` from `together_models.py`: lowercase, spaces to
hyphens, delete brackets/braces/parens, replace remaining characters outside
`[\w\-.]` by `_`, collapse runs of `_` and of `-`, strip trailing `-`/`_`.
Lowercasing (`str.lower`) and `\w` are modelled over ASCII. -/
def sanitize_filename (name : String) : String :=
  let result := (name.data.map Char.toLower).map (fun c => if c = ' ' then '-' else c)
  let result := result.filter (fun c => !(isBracketChar c))
  let result := result.map (fun c => if isWordChar c || c = '-' || c = '.' then c else '_')
  let result := collapseRuns '_' result
  let result := collapseRuns '-' result
  let result := rstripDashUnderscore result
  String.mk result

/-- Lexicographic comparison of character lists by Unicode code point, the
order Python uses on strings. -/
def charListLe : List Char → List Char → Bool
  | [], _ => true
  | _ :: _, [] => false
  | a :: as, b :: bs =>
      if a.toNat < b.toNat then true
      else if b.toNat < a.toNat then false
      else charListLe as bs

/-- String comparison by code points (the Python comparison on `str`). -/
def strLe (a b : String) : Bool := charListLe a.data b.data

/-- Insert a string into a list sorted ascending by `strLe`. -/
def insertSorted (a : String) : List String → List String
  | [] => [a]
  | b :: rest => if strLe a b then a :: b :: rest else b :: insertSorted a rest

/-- Sort a list of strings ascending by `strLe` (insertion sort), modelling
the Python builtin `sorted` on a list of strings. -/
def sortStrings : List String → List String
  | [] => []
  | a :: rest => insertSorted a (sortStrings rest)

/-- The `type_to_role` dictionary of `determine_roles`: `some roles` when the
type is a key of the dictionary, `none` otherwise. -/
def type_to_role (t : String) : Option (List String) :=
  match t with
  | "chat" => some ["chat"]
  | "language" => some ["chat"]
  | "embedding" => some ["embed"]
  | "rerank" => some ["rerank"]
  | "image" => some ["image"]
  | "audio" => some ["audio"]
  | "moderation" => some ["moderation"]
  | _ => none

/-- The function `determine_roles` from `together_models.py`: base roles from the type
dictionary, `apply`/`edit` for chat/language models with
`context_length >= 8192`, `autocomplete` for allowlisted names or ids, then
`sorted(list(set(roles)))`. -/
def determine_roles (model_data : ModelRecord) : List String :=
  let model_type := model_data.type.getD ""
  let roles := (type_to_role model_type).getD []
  let roles :=
    if model_type = "chat" ∨ model_type = "language" then
      let context_length := model_data.context_length.getD 0
      let roles :=
        if context_length ≥ 8192 ∧ "apply" ∉ roles then roles ++ ["apply"] else roles
      let roles :=
        if context_length ≥ 8192 ∧ "edit" ∉ roles then roles ++ ["edit"] else roles
      roles
    else roles
  let model_id := model_data.id.getD ""
  let display_name := model_data.display_name.getD ""
  let roles :=
    if display_name ∈ AUTOCOMPLETE_MODELS ∨ model_id ∈ AUTOCOMPLETE_MODELS then
      if "autocomplete" ∉ roles then roles ++ ["autocomplete"] else roles
    else roles
  sortStrings roles.dedup

/-- A parsed semantic version, mirroring `semver.VersionInfo` of the Python
`semver` package used by `increment_version`. -/
structure VersionInfo where
  major : Nat
  minor : Nat
  patch : Nat
  prerelease : Option String := none
  build : Option String := none
deriving DecidableEq

/-- Parse a maximal digit prefix as a semver numeric identifier
(`0|[1-9]\d*`): non-empty, no leading zero.  Returns the value and the rest of
the input. -/
def parseNumericCore (cs : List Char) : Option (Nat × List Char) :=
  let p := cs.span Char.isDigit
  match p.1, p.2 with
  | [], _ => none
  | d :: ds, rest =>
      if d = '0' && ds ≠ [] then none
      else some ((d :: ds).foldl (fun n c => n * 10 + (c.toNat - 48)) 0, rest)

/-- Split a character list at the first occurrence of `t`; the second
component is `none` when `t` does not occur. -/
def splitAtFirst (t : Char) : List Char → List Char × Option (List Char)
  | [] => ([], none)
  | c :: rest =>
      if c = t then ([], some rest)
      else
        let p := splitAtFirst t rest
        (c :: p.1, p.2)

/-- Split a character list on every dot, keeping empty groups (so the empty
input yields one empty group, as Python's `str.split('.')` does). -/
def splitDots : List Char → List (List Char)
  | [] => [[]]
  | c :: rest =>
      if c = '.' then [] :: splitDots rest
      else
        match splitDots rest with
        | [] => [[c]]
        | g :: gs => (c :: g) :: gs

/-- A character allowed in semver prerelease/build identifiers:
`[0-9A-Za-z-]`. -/
def validIdChar (c : Char) : Bool := c.isDigit || c.isAlpha || c = '-'

/-- A valid semver prerelease identifier: non-empty, allowed characters only,
and purely numeric identifiers have no leading zero. -/
def validPreIdent (t : List Char) : Bool :=
  !t.isEmpty && t.all validIdChar &&
    (if t.all Char.isDigit then t.length == 1 || !(t.head? == some '0') else true)

/-- A valid semver build identifier: non-empty, allowed characters only. -/
def validBuildIdent (t : List Char) : Bool :=
  !t.isEmpty && t.all validIdChar

/-- Model of `semver.VersionInfo.parse`: a full three-component semantic version
`MAJOR.MINOR.PATCH`, optionally followed by `-prerelease` and `+build`;
`none` models the `ValueError` the Python function raises on invalid input. -/
def VersionInfo.parse (s : String) : Option VersionInfo :=
  match parseNumericCore s.data with
  | none => none
  | some (major, rest₁) =>
    match rest₁ with
    | '.' :: rest₂ =>
      match parseNumericCore rest₂ with
      | none => none
      | some (minor, rest₃) =>
        match rest₃ with
        | '.' :: rest₄ =>
          match parseNumericCore rest₄ with
          | none => none
          | some (patch, rest₅) =>
            match rest₅ with
            | [] => some { major := major, minor := minor, patch := patch }
            | '-' :: rest₆ =>
                let p := splitAtFirst '+' rest₆
                if (splitDots p.1).all validPreIdent then
                  match p.2 with
                  | none => some { major := major, minor := minor, patch := patch,
                                   prerelease := some (String.mk p.1) }
                  | some b =>
                      if (splitDots b).all validBuildIdent then
                        some { major := major, minor := minor, patch := patch,
                               prerelease := some (String.mk p.1), build := some (String.mk b) }
                      else none
                else none
            | '+' :: rest₆ =>
                if (splitDots rest₆).all validBuildIdent then
                  some { major := major, minor := minor, patch := patch,
                         build := some (String.mk rest₆) }
                else none
            | _ => none
        | _ => none
    | _ => none

/-- The function `increment_version` from `together_models.py`: parse the stored version
and return `str(version.bump_minor())` (minor incremented, patch reset to 0,
prerelease/build dropped); on a parse failure (`ValueError`) fall back to
`"1.0.0"` after logging a warning. -/
def increment_version (current_version : String) : String :=
  match VersionInfo.parse current_version with
  | some version_info =>
      toString version_info.major ++ "." ++ toString (version_info.minor + 1) ++ ".0"
  | none => "1.0.0"

/-- A lowercase hexadecimal digit. -/
def hexDigit (n : Nat) : Char :=
  if n < 10 then Char.ofNat (48 + n) else Char.ofNat (87 + n)

/-- Four lowercase hexadecimal digits, as in a JSON `\uXXXX` escape. -/
def hex4 (n : Nat) : String :=
  String.mk [hexDigit (n / 4096 % 16), hexDigit (n / 256 % 16), hexDigit (n / 16 % 16), hexDigit (n % 16)]

/-- Escape one character the way `json.dumps` (default `ensure_ascii=True`)
does inside a string literal. -/
def escapeJsonChar (c : Char) : String :=
  if c = '"' then "\\\""
  else if c = '\\' then "\\\\"
  else if c = '\n' then "\\n"
  else if c = '\t' then "\\t"
  else if c = '\r' then "\\r"
  else if c = '\x08' then "\\b"
  else if c = '\x0c' then "\\f"
  else if c.val < 32 then "\\u" ++ hex4 c.toNat
  else if c.val < 127 then String.mk [c]
  else if c.toNat ≤ 65535 then "\\u" ++ hex4 c.toNat
  else
    let v := c.toNat - 65536
    "\\u" ++ hex4 (55296 + v / 1024) ++ "\\u" ++ hex4 (56320 + v % 1024)

/-- A JSON string literal as `json.dumps` renders it. -/
def dumpsString (s : String) : String :=
  "\"" ++ String.join (s.data.map escapeJsonChar) ++ "\""

/-- Insert a key/value pair into a list sorted by key (code-point order). -/
def insertPairSorted (p : String × Json) : List (String × Json) → List (String × Json)
  | [] => [p]
  | q :: rest => if strLe p.1 q.1 then p :: q :: rest else q :: insertPairSorted p rest

/-- Sort key/value pairs ascending by key, as `json.dumps(..., sort_keys=True)`
orders the members of every object. -/
def sortPairsByKey : List (String × Json) → List (String × Json)
  | [] => []
  | p :: rest => insertPairSorted p (sortPairsByKey rest)

mutual
/-- Recursively sort the members of every object in a JSON value by key. -/
def sortJsonKeys : Json → Json
  | .obj fields => .obj (sortPairsByKey (sortJsonKeysFields fields))
  | .arr xs => .arr (sortJsonKeysList xs)
  | .null => .null
  | .bool b => .bool b
  | .num n => .num n
  | .str s => .str s

def sortJsonKeysFields : List (String × Json) → List (String × Json)
  | [] => []
  | (k, v) :: rest => (k, sortJsonKeys v) :: sortJsonKeysFields rest

def sortJsonKeysList : List Json → List Json
  | [] => []
  | x :: rest => sortJsonKeys x :: sortJsonKeysList rest
end

mutual
/-- Serialize a JSON value with `json.dumps` default separators
(`", "` and `": "`), without reordering object members. -/
def dumpsRaw : Json → String
  | .null => "null"
  | .bool true => "true"
  | .bool false => "false"
  | .num n => toString n
  | .str s => dumpsString s
  | .arr xs => "[" ++ String.intercalate ", " (dumpsRawList xs) ++ "]"
  | .obj fields => "\x7b" ++ String.intercalate ", " (dumpsRawFields fields) ++ "\x7d"

def dumpsRawList : List Json → List String
  | [] => []
  | x :: rest => dumpsRaw x :: dumpsRawList rest

def dumpsRawFields : List (String × Json) → List String
  | [] => []
  | (k, v) :: rest => (dumpsString k ++ ": " ++ dumpsRaw v) :: dumpsRawFields rest
end

/-- Model of `json.dumps` with `sort_keys=True`: the members of every object
sorted by key, default separators. -/
def json_dumps_sorted (j : Json) : String := dumpsRaw (sortJsonKeys j)

/-- The `simplified_data` dictionary of `generate_model_hash`: only the five
fields that matter for change detection, with the defaults the source uses
for missing keys, in the insertion order of the source. -/
def simplified_data (model_data : ModelRecord) : Json :=
  .obj [ ("id", .str (model_data.id.getD "")),
         ("display_name", .str (model_data.display_name.getD "")),
         ("type", .str (model_data.type.getD "")),
         ("context_length", .num (model_data.context_length.getD 0 : Nat)),
         ("pricing", model_data.pricing.getD (.obj [])) ]

/-- The function `generate_model_hash` from `together_models.py`: the canonical string
`data_str = json.dumps(simplified_data, sort_keys=True)`.  The source applies
`hashlib.md5(data_str.encode()).hexdigest()` to this string; since MD5 is a
deterministic function of `data_str` and every property verified here concerns
only equality of digests, the digest is modelled by the canonical string
itself. -/
def generate_model_hash (model_data : ModelRecord) : String :=
  json_dumps_sorted (simplified_data model_data)

/-- One entry of the version cache (`.version_cache.json`): the ledger record
the script stores per model id. -/
structure CacheEntry where
  hash : String
  version : String
  filename : String
  display_name : String
deriving DecidableEq

/-- The version cache, a JSON dictionary keyed by model id.  Modelled as an
association list with distinct keys maintained by `cacheInsert`. -/
abbrev Cache := List (String × CacheEntry)

/-- Dictionary lookup `version_cache[model_id]` / `model_id in version_cache`. -/
def cacheFind (version_cache : Cache) (model_id : String) : Option CacheEntry :=
  match List.find? (fun kv => kv.1 == model_id) version_cache with
  | some kv => some kv.2
  | none => none

/-- Dictionary assignment `version_cache[model_id] = entry`: replace the
existing entry for the key, or append a new one. -/
def cacheInsert (version_cache : Cache) (model_id : String) (entry : CacheEntry) : Cache :=
  if List.any version_cache (fun kv => kv.1 == model_id) then
    List.map (fun kv => if kv.1 == model_id then (model_id, entry) else kv) version_cache
  else
    version_cache ++ [(model_id, entry)]

/-- The `defaultCompletionOptions` block of a generated document. -/
structure CompletionOptions where
  contextLength : Nat
deriving DecidableEq

/-- The single model entry of a generated document, fields in the insertion
order of the source. -/
structure YamlModelEntry where
  name : String
  provider : String
  model : String
  apiKey : String
  defaultCompletionOptions : Option CompletionOptions
  roles : List String
deriving DecidableEq

/-- The generated document (`yaml_content` in `create_yaml_file`). -/
structure YamlContent where
  name : String
  version : String
  schema : String
  models : List YamlModelEntry
deriving DecidableEq

/-- The function `validate_yaml_content` from `together_models.py`.  The typed
document always carries the required top-level and per-model fields, so the
field-presence checks of the source cannot fire here; the remaining checks are the
schema tag, the non-empty models array, the provider tag and the non-empty
roles array.  Returns `none` for a valid document, `some errors` otherwise. -/
def validate_yaml_content (yaml_content : YamlContent) : Option (List String) :=
  let errors : List String := []
  let errors := errors ++
    (if yaml_content.schema ≠ "v1" then ["Invalid schema version (expected v1)"] else [])
  let errors := errors ++
    (if yaml_content.models.isEmpty then ["models must be a non-empty array"]
     else List.flatten (yaml_content.models.map (fun model =>
        (if model.provider ≠ "together" then ["Provider should be together"] else []) ++
        (if model.roles.isEmpty then ["roles must be a non-empty array"] else []))))
  if errors.isEmpty then none else some errors

/-- The version/status decision of `create_yaml_file` (the version ledger
transition): absent id ⇒ `("1.0.0", created)`; present with equal hash ⇒
stored version, `unchanged`; present with different hash ⇒
`increment_version` of the stored version, `updated`. -/
def version_status (version_cache : Cache) (model_id : String) (current_hash : String) :
    String × String :=
  match cacheFind version_cache model_id with
  | some entry =>
      if current_hash ≠ entry.hash then (increment_version entry.version, "updated")
      else (entry.version, "unchanged")
  | none => ("1.0.0", "created")

/-- The `yaml_content` dictionary assembled by `create_yaml_file`, fields in
the insertion order of the source; the `defaultCompletionOptions` block is present
only when `context_length > 0`. -/
def build_yaml_content (display_name version model_id : String) (context_length : Nat)
    (roles : List String) : YamlContent :=
  { name := display_name, version := version, schema := "v1",
    models := [ { name := display_name, provider := "together", model := model_id,
                  apiKey := "$\x7b\x7b inputs.TOGETHER_API_KEY \x7d\x7d",
                  defaultCompletionOptions :=
                    if context_length > 0 then some { contextLength := context_length }
                    else none,
                  roles := roles } ] }

/-- The tuple `create_yaml_file` returns on success.  The `change_details`
component is omitted: it is computed by re-reading the previously written
document from disk (the excluded storage layer) and no verified property
concerns it. -/
structure CreateResult where
  filepath : String
  display_name : String
  roles : List String
  model_type : String
  status : String
  version : String
deriving DecidableEq

/-- The full outcome of one `create_yaml_file` call: the returned value
(`none` models the Python `return None`), the version cache after the call, and
whether the validation step ran and whether the document file was written. -/
structure CreateOutcome where
  result : Option CreateResult
  version_cache : Cache
  validated : Bool
  wrote : Bool
deriving DecidableEq

/-- The function `create_yaml_file` from `together_models.py`: skip on empty display name
or id, classify roles, fingerprint, take the ledger transition, assemble the
document, and — only when the status is not `unchanged` — validate it
(skipping on validation errors) and write it; finally store the new ledger
entry. -/
def create_yaml_file (model_data : ModelRecord) (output_dir : String) (version_cache : Cache) :
    CreateOutcome :=
  let display_name := model_data.display_name.getD ""
  if display_name = "" then
    { result := none, version_cache := version_cache, validated := false, wrote := false }
  else
    let model_id := model_data.id.getD ""
    if model_id = "" then
      { result := none, version_cache := version_cache, validated := false, wrote := false }
    else
      let filename := sanitize_filename display_name ++ ".yaml"
      let filepath := output_dir ++ "/" ++ filename
      let roles := determine_roles model_data
      let current_hash := generate_model_hash model_data
      let vs := version_status version_cache model_id current_hash
      let version := vs.1
      let status := vs.2
      let context_length := model_data.context_length.getD 0
      let yaml_content : YamlContent :=
        build_yaml_content display_name version model_id context_length roles
      let new_entry : CacheEntry :=
        { hash := current_hash, version := version, filename := filename,
          display_name := display_name }
      let result : CreateResult :=
        { filepath := filepath, display_name := display_name, roles := roles,
          model_type := model_data.type.getD "unknown", status := status, version := version }
      if status ≠ "unchanged" then
        match validate_yaml_content yaml_content with
        | some _ =>
            { result := none, version_cache := version_cache, validated := true, wrote := false }
        | none =>
            { result := some result,
              version_cache := cacheInsert version_cache model_id new_entry,
              validated := true, wrote := true }
      else
        { result := some result,
          version_cache := cacheInsert version_cache model_id new_entry,
          validated := false, wrote := false }

theorem mem_insertSorted {a b : String} {l : List String} :
    b ∈ insertSorted a l ↔ b = a ∨ b ∈ l := by
  induction l with
  | nil => simp [insertSorted]
  | cons c rest ih =>
    simp only [insertSorted]
    split_ifs with h
    · simp [List.mem_cons]
    · simp only [List.mem_cons, ih]
      tauto

theorem mem_sortStrings {b : String} {l : List String} :
    b ∈ sortStrings l ↔ b ∈ l := by
  induction l with
  | nil => simp [sortStrings]
  | cons a rest ih => simp [sortStrings, mem_insertSorted, ih]

theorem apply_notMem_base (t : String) : "apply" ∉ (type_to_role t).getD [] := by
  unfold type_to_role
  split <;> simp

theorem edit_notMem_base (t : String) : "edit" ∉ (type_to_role t).getD [] := by
  unfold type_to_role
  split <;> simp

theorem autocomplete_notMem_base (t : String) : "autocomplete" ∉ (type_to_role t).getD [] := by
  unfold type_to_role
  split <;> simp

/-- Membership characterization of `determine_roles`: a role is in the result
exactly when it is a base role of the type, or an `apply`/`edit` role earned
by a chat/language type with context length at least `8192`, or the
`autocomplete` role granted by the allowlist. -/
theorem mem_determine_roles (model_data : ModelRecord) (x : String) :
    x ∈ determine_roles model_data ↔
      (x ∈ (type_to_role (model_data.type.getD "")).getD []
        ∨ ((model_data.type.getD "" = "chat" ∨ model_data.type.getD "" = "language")
            ∧ 8192 ≤ model_data.context_length.getD 0 ∧ (x = "apply" ∨ x = "edit"))
        ∨ ((model_data.display_name.getD "" ∈ AUTOCOMPLETE_MODELS
             ∨ model_data.id.getD "" ∈ AUTOCOMPLETE_MODELS)
            ∧ x = "autocomplete")) := by
  have ha := apply_notMem_base (model_data.type.getD "")
  have he := edit_notMem_base (model_data.type.getD "")
  have hau := autocomplete_notMem_base (model_data.type.getD "")
  simp only [determine_roles]
  rw [mem_sortStrings, List.mem_dedup]
  by_cases hcl : 8192 ≤ model_data.context_length.getD 0 <;>
  by_cases hty : model_data.type.getD "" = "chat" ∨ model_data.type.getD "" = "language" <;>
  by_cases hal : model_data.display_name.getD "" ∈ AUTOCOMPLETE_MODELS
      ∨ model_data.id.getD "" ∈ AUTOCOMPLETE_MODELS <;>
  (simp [hty, hal, hcl, ha, he, hau, List.mem_append]
   try tauto)
/-- C1: the role `apply` is in the result of the classifier if and only if
the type of the record is `chat` or `language` and its context length is at least
8192; in particular no record with a smaller context length is ever assigned
`apply`, whatever its other fields. -/
theorem apply_role_iff (model_data : ModelRecord) :
    "apply" ∈ determine_roles model_data ↔
      ((model_data.type.getD "" = "chat" ∨ model_data.type.getD "" = "language")
        ∧ 8192 ≤ model_data.context_length.getD 0) := by
  rw [mem_determine_roles]
  have ha := apply_notMem_base (model_data.type.getD "")
  simp
  tauto

/-- C4: for a record of type `chat` or `language`, the role `edit` is in the
result of the classifier if and only if the context length is at least 8192. -/
theorem edit_role_iff (model_data : ModelRecord)
    (hty : model_data.type.getD "" = "chat" ∨ model_data.type.getD "" = "language") :
    "edit" ∈ determine_roles model_data ↔ 8192 ≤ model_data.context_length.getD 0 := by
  rw [mem_determine_roles]
  have he := edit_notMem_base (model_data.type.getD "")
  simp
  tauto

/-- Witness for C4 at a concrete chat record with context length 8192. -/
theorem edit_role_iff_witness :
    "edit" ∈ determine_roles
        ({ type := some "chat", context_length := some 8192 } : ModelRecord) ↔
      8192 ≤ (({ type := some "chat", context_length := some 8192 } : ModelRecord)
        ).context_length.getD 0 :=
  edit_role_iff { type := some "chat", context_length := some 8192 } (Or.inl rfl)

/-- C5: the role `autocomplete` is in the result of the classifier if and
only if the display name or id of the record is a member of the allowlist, for every type
(there is no type gate on the allowlist override). -/
theorem autocomplete_role_iff (model_data : ModelRecord) :
    "autocomplete" ∈ determine_roles model_data ↔
      (model_data.display_name.getD "" ∈ AUTOCOMPLETE_MODELS
        ∨ model_data.id.getD "" ∈ AUTOCOMPLETE_MODELS) := by
  rw [mem_determine_roles]
  have hau := autocomplete_notMem_base (model_data.type.getD "")
  simp
  tauto

/-- C3 counterexample: a record of type `chat` whose context length is below
8192 does not receive the `edit` role, so `edit` is not a base role of the
chat type independent of context length. -/
theorem chat_base_roles_no_edit_counterexample :
    "edit" ∉ determine_roles
      ({ type := some "chat", context_length := some 4096 } : ModelRecord) := by
  decide

/-- C3 amended: with the context-length and allowlist additions switched off
(context length below 8192 and a record outside the allowlist), the
result of the classifier is exactly the base roles of the type: chat/language
yield only `chat` (not `edit`), embedding yields `embed`, rerank `rerank`,
image `image`, audio `audio`, moderation `moderation`, and any other type
yields no roles. -/
theorem base_roles_from_type (model_data : ModelRecord)
    (hdn : model_data.display_name.getD "" ∉ AUTOCOMPLETE_MODELS)
    (hid : model_data.id.getD "" ∉ AUTOCOMPLETE_MODELS)
    (hcl : model_data.context_length.getD 0 < 8192) :
    determine_roles model_data =
      if model_data.type.getD "" = "chat" ∨ model_data.type.getD "" = "language" then ["chat"]
      else if model_data.type.getD "" = "embedding" then ["embed"]
      else if model_data.type.getD "" = "rerank" then ["rerank"]
      else if model_data.type.getD "" = "image" then ["image"]
      else if model_data.type.getD "" = "audio" then ["audio"]
      else if model_data.type.getD "" = "moderation" then ["moderation"]
      else [] := by
  have hcl' : ¬ (8192 ≤ model_data.context_length.getD 0) := by omega
  simp only [determine_roles]
  simp [hcl', hdn, hid]
  unfold type_to_role
  split <;> simp_all <;> decide

/-- Witness for C3 amended at a concrete embedding record. -/
theorem base_roles_from_type_witness :
    determine_roles ({ type := some "embedding" } : ModelRecord) =
      if (({ type := some "embedding" } : ModelRecord)).type.getD "" = "chat"
          ∨ (({ type := some "embedding" } : ModelRecord)).type.getD "" = "language" then ["chat"]
      else if (({ type := some "embedding" } : ModelRecord)).type.getD "" = "embedding" then ["embed"]
      else if (({ type := some "embedding" } : ModelRecord)).type.getD "" = "rerank" then ["rerank"]
      else if (({ type := some "embedding" } : ModelRecord)).type.getD "" = "image" then ["image"]
      else if (({ type := some "embedding" } : ModelRecord)).type.getD "" = "audio" then ["audio"]
      else if (({ type := some "embedding" } : ModelRecord)).type.getD "" = "moderation" then ["moderation"]
      else [] :=
  base_roles_from_type { type := some "embedding" } (by decide) (by decide) (by decide)

theorem charListLe_total : ∀ (a b : List Char), charListLe a b = true ∨ charListLe b a = true := by
  intro a
  induction a with
  | nil => intro b; left; simp [charListLe]
  | cons x xs ih =>
    intro b
    cases b with
    | nil => right; simp [charListLe]
    | cons y ys =>
      by_cases h1 : x.toNat < y.toNat
      · left; simp [charListLe, h1]
      · by_cases h2 : y.toNat < x.toNat
        · right; simp [charListLe, h2]
        · rcases ih ys with h | h
          · left; simp [charListLe, h1, h2, h]
          · right; simp [charListLe, h1, h2, h]

theorem charListLe_antisymm :
    ∀ (a b : List Char), charListLe a b = true → charListLe b a = true → a = b := by
  intro a
  induction a with
  | nil =>
    intro b _ hba
    cases b with
    | nil => rfl
    | cons y ys => simp [charListLe] at hba
  | cons x xs ih =>
    intro b hab hba
    cases b with
    | nil => simp [charListLe] at hab
    | cons y ys =>
      simp only [charListLe] at hab hba
      by_cases h1 : x.toNat < y.toNat
      · simp [h1, Nat.lt_asymm h1] at hba
      · by_cases h2 : y.toNat < x.toNat
        · simp [h1, h2] at hab
        · have hxy : x = y :=
            Char.eq_of_val_eq (UInt32.toNat.inj (show x.toNat = y.toNat by omega))
          simp only [h1, h2, if_neg, if_false] at hab hba
          rw [hxy, ih ys (by simpa [h1, h2] using hab) (by simpa [h1, h2] using hba)]

theorem charListLe_trans :
    ∀ (a b c : List Char), charListLe a b = true → charListLe b c = true →
      charListLe a c = true := by
  intro a
  induction a with
  | nil => intro b c _ _; simp [charListLe]
  | cons x xs ih =>
    intro b c hab hbc
    cases b with
    | nil => simp [charListLe] at hab
    | cons y ys =>
      cases c with
      | nil => simp [charListLe] at hbc
      | cons z zs =>
        simp only [charListLe] at hab hbc ⊢
        by_cases h1 : x.toNat < y.toNat
        · by_cases h2 : y.toNat < z.toNat
          · have h3 : x.toNat < z.toNat := by omega
            simp [h3]
          · by_cases h2' : z.toNat < y.toNat
            · simp [h2, h2'] at hbc
            · have h3 : x.toNat < z.toNat := by omega
              simp [h3]
        · by_cases h1' : y.toNat < x.toNat
          · simp [h1, h1'] at hab
          · by_cases h2 : y.toNat < z.toNat
            · have h3 : x.toNat < z.toNat := by omega
              simp [h3]
            · by_cases h2' : z.toNat < y.toNat
              · simp [h2, h2'] at hbc
              · have h3 : ¬ x.toNat < z.toNat := by omega
                have h3' : ¬ z.toNat < x.toNat := by omega
                simp only [h1, h1', if_neg, if_false] at hab
                simp only [h2, h2', if_neg, if_false] at hbc
                simp [h3, h3']
                exact ih ys zs (by simpa using hab) (by simpa using hbc)

theorem strLe_total (a b : String) : strLe a b = true ∨ strLe b a = true :=
  charListLe_total a.data b.data

theorem strLe_antisymm {a b : String} (hab : strLe a b = true) (hba : strLe b a = true) :
    a = b :=
  congrArg String.mk (charListLe_antisymm a.data b.data hab hba)

theorem strLe_trans {a b c : String} (hab : strLe a b = true) (hbc : strLe b c = true) :
    strLe a c = true :=
  charListLe_trans a.data b.data c.data hab hbc

/-- The key order on JSON object members used by the canonical serializer. -/
def keyLe (p q : String × Json) : Prop := strLe p.1 q.1 = true

theorem insertPairSorted_perm (p : String × Json) (l : List (String × Json)) :
    List.Perm (insertPairSorted p l) (p :: l) := by
  induction l with
  | nil => exact List.Perm.refl _
  | cons q rest ih =>
    simp only [insertPairSorted]
    split_ifs with h
    · exact List.Perm.refl _
    · exact (List.Perm.cons q ih).trans (List.Perm.swap p q rest)

theorem sortPairsByKey_perm (l : List (String × Json)) : List.Perm (sortPairsByKey l) l := by
  induction l with
  | nil => exact List.Perm.refl _
  | cons p rest ih =>
    exact (insertPairSorted_perm p (sortPairsByKey rest)).trans (List.Perm.cons p ih)

theorem insertPairSorted_pairwise {p : String × Json} {l : List (String × Json)}
    (h : l.Pairwise keyLe) : (insertPairSorted p l).Pairwise keyLe := by
  induction l with
  | nil => simp [insertPairSorted, keyLe]
  | cons q rest ih =>
    rcases List.pairwise_cons.mp h with ⟨hq, hrest⟩
    simp only [insertPairSorted]
    split_ifs with hle
    · refine List.pairwise_cons.mpr ⟨?_, h⟩
      intro r hr
      rcases List.mem_cons.mp hr with rfl | hr
      · exact hle
      · exact strLe_trans hle (hq r hr)
    · refine List.pairwise_cons.mpr ⟨?_, ih hrest⟩
      intro r hr
      rcases List.mem_cons.mp ((insertPairSorted_perm p rest).mem_iff.mp hr) with rfl | hr
      · rcases strLe_total r.1 q.1 with h | h
        · exact absurd h hle
        · exact h
      · exact hq r hr

theorem sortPairsByKey_pairwise (l : List (String × Json)) :
    (sortPairsByKey l).Pairwise keyLe := by
  induction l with
  | nil => simp [sortPairsByKey]
  | cons p rest ih => exact insertPairSorted_pairwise ih

theorem sortPairsByKey_eq_of_perm {l l' : List (String × Json)} (hp : List.Perm l l')
    (hn : (l.map Prod.fst).Nodup) : sortPairsByKey l = sortPairsByKey l' := by
  have hps : List.Perm (sortPairsByKey l) (sortPairsByKey l') :=
    (sortPairsByKey_perm l).trans (hp.trans (sortPairsByKey_perm l').symm)
  have hns : ((sortPairsByKey l).map Prod.fst).Nodup :=
    (((sortPairsByKey_perm l).map Prod.fst).nodup_iff).mpr hn
  have hns' : ((sortPairsByKey l').map Prod.fst).Nodup :=
    (((sortPairsByKey_perm l').map Prod.fst).nodup_iff).mpr ((hp.map Prod.fst).nodup_iff.mp hn)
  have hne : (sortPairsByKey l).Pairwise (fun p q => p.1 ≠ q.1) :=
    List.pairwise_map.mp hns
  have hne' : (sortPairsByKey l').Pairwise (fun p q => p.1 ≠ q.1) :=
    List.pairwise_map.mp hns'
  haveI : IsAntisymm (String × Json) (fun p q => keyLe p q ∧ p.1 ≠ q.1) :=
    ⟨fun _ _ hab hba => (hab.2 (strLe_antisymm hab.1 hba.1)).elim⟩
  exact List.eq_of_perm_of_sorted hps
    ((sortPairsByKey_pairwise l).and hne) ((sortPairsByKey_pairwise l').and hne')

theorem sortJsonKeysFields_eq_map (xs : List (String × Json)) :
    sortJsonKeysFields xs = xs.map (fun kv => (kv.1, sortJsonKeys kv.2)) := by
  induction xs with
  | nil => rfl
  | cons a r ih => cases a; simp [sortJsonKeysFields, ih]

/-- C8: the content fingerprint is a function of the five fields id,
display_name, type, context_length and pricing alone (missing fields take
the defaults of the source): two records agreeing on these five fields have
equal digests, whatever their other fields; and the canonical serialization
is order-independent in the member order of an object with distinct keys. -/
theorem generate_model_hash_field_scoped
    (r1 r2 : ModelRecord)
    (hid : r1.id.getD "" = r2.id.getD "")
    (hdn : r1.display_name.getD "" = r2.display_name.getD "")
    (hty : r1.type.getD "" = r2.type.getD "")
    (hcl : r1.context_length.getD 0 = r2.context_length.getD 0)
    (hpr : r1.pricing.getD (Json.obj []) = r2.pricing.getD (Json.obj [])) :
    generate_model_hash r1 = generate_model_hash r2
    ∧ ∀ (kvs kvs' : List (String × Json)), List.Perm kvs kvs' →
        (kvs.map Prod.fst).Nodup →
        json_dumps_sorted (Json.obj kvs) = json_dumps_sorted (Json.obj kvs') := by
  constructor
  · unfold generate_model_hash simplified_data
    rw [hid, hdn, hty, hcl, hpr]
  · intro kvs kvs' hperm hnodup
    have hmapped : List.Perm (sortJsonKeysFields kvs) (sortJsonKeysFields kvs') := by
      rw [sortJsonKeysFields_eq_map, sortJsonKeysFields_eq_map]
      exact hperm.map _
    have hkeys : ((sortJsonKeysFields kvs).map Prod.fst).Nodup := by
      rw [sortJsonKeysFields_eq_map, List.map_map]
      exact hnodup
    show dumpsRaw (sortJsonKeys (Json.obj kvs)) = dumpsRaw (sortJsonKeys (Json.obj kvs'))
    simp only [sortJsonKeys]
    rw [sortPairsByKey_eq_of_perm hmapped hkeys]

/-- Witness for C8: a record with `context_length` and `pricing` keys absent
and an extra `description` field hashes like a record carrying the default
values explicitly and no extra fields. -/
theorem generate_model_hash_field_scoped_witness :
    generate_model_hash
        { id := some "m1", display_name := some "D", type := some "chat",
          extra := [("description", Json.str "x")] } =
      generate_model_hash
        { id := some "m1", display_name := some "D", type := some "chat",
          context_length := some 0, pricing := some (Json.obj []) } :=
  (generate_model_hash_field_scoped
    { id := some "m1", display_name := some "D", type := some "chat",
      extra := [("description", Json.str "x")] }
    { id := some "m1", display_name := some "D", type := some "chat",
      context_length := some 0, pricing := some (Json.obj []) }
    rfl rfl rfl rfl rfl).1

/-- C6: when the stored version string does not parse as a semantic version,
`increment_version` returns `"1.0.0"` (it is a total function, modelling that
the `ValueError` is caught and never escapes); consequently an updated model
whose ledger entry holds such a version is reset to `"1.0.0"`. -/
theorem increment_version_invalid (s : String) (hparse : VersionInfo.parse s = none) :
    increment_version s = "1.0.0"
    ∧ ∀ (version_cache : Cache) (model_id current_hash : String) (e : CacheEntry),
        cacheFind version_cache model_id = some e → e.version = s →
        current_hash ≠ e.hash →
        version_status version_cache model_id current_hash = ("1.0.0", "updated") := by
  have h1 : increment_version s = "1.0.0" := by
    unfold increment_version
    rw [hparse]
  refine ⟨h1, ?_⟩
  intro version_cache model_id current_hash e hfind hver hne
  unfold version_status
  rw [hfind]
  simp only [if_pos hne]
  rw [hver, h1]

/-- Witness for C6 at the stored version `"not-a-version"`. -/
theorem increment_version_invalid_witness :
    increment_version "not-a-version" = "1.0.0"
    ∧ version_status
        [("m1", { hash := "h0", version := "not-a-version", filename := "f", display_name := "d" })]
        "m1" "h1" = ("1.0.0", "updated") := by
  have h := increment_version_invalid "not-a-version" (by decide)
  exact ⟨h.1,
    h.2 [("m1", { hash := "h0", version := "not-a-version", filename := "f", display_name := "d" })]
      "m1" "h1" { hash := "h0", version := "not-a-version", filename := "f", display_name := "d" }
      (by decide) rfl (by decide)⟩

/-- C2: whenever `create_yaml_file` returns a result, its status and version
follow the version ledger transition: id absent from the cache gives version
`"1.0.0"` and status `created`; id present with an unchanged fingerprint
keeps the stored version with status `unchanged`; id present with a changed
fingerprint gives status `updated` and, when the stored version parses, the
version with the minor component incremented, the patch reset to 0 and the
major kept. -/
theorem create_yaml_file_version_transition
    (model_data : ModelRecord) (output_dir : String) (version_cache : Cache)
    (r : CreateResult)
    (hres : (create_yaml_file model_data output_dir version_cache).result = some r) :
    (cacheFind version_cache (model_data.id.getD "") = none →
        r.status = "created" ∧ r.version = "1.0.0")
    ∧ (∀ e : CacheEntry, cacheFind version_cache (model_data.id.getD "") = some e →
        (generate_model_hash model_data = e.hash →
            r.status = "unchanged" ∧ r.version = e.version)
        ∧ (generate_model_hash model_data ≠ e.hash →
            r.status = "updated" ∧
            ∀ v : VersionInfo, VersionInfo.parse e.version = some v →
              r.version = toString v.major ++ "." ++ toString (v.minor + 1) ++ ".0")) := by
  simp only [create_yaml_file] at hres
  split_ifs at hres with h1 h2 h3
  · split at hres
    · simp at hres
    · simp only [Option.some.injEq] at hres
      subst hres
      constructor
      · intro hnone
        simp [version_status, hnone]
      · intro e hfind
        constructor
        · intro hh
          simp [version_status, hfind, hh]
        · intro hh
          constructor
          · simp [version_status, hfind, hh]
          · intro v hv
            simp [version_status, hfind, hh, increment_version, hv]
  · simp only [Option.some.injEq] at hres
    subst hres
    constructor
    · intro hnone
      simp [version_status, hnone]
    · intro e hfind
      constructor
      · intro hh
        simp [version_status, hfind, hh]
      · intro hh
        constructor
        · simp [version_status, hfind, hh]
        · intro v hv
          simp [version_status, hfind, hh, increment_version, hv]

theorem version_status_cases (version_cache : Cache) (model_id current_hash : String) :
    (version_status version_cache model_id current_hash).2 = "created"
    ∨ (version_status version_cache model_id current_hash).2 = "unchanged"
    ∨ (version_status version_cache model_id current_hash).2 = "updated" := by
  unfold version_status
  split
  · split_ifs <;> simp
  · simp

/-- Witness for C2: a cached model whose fingerprint changed and whose stored
version is `"1.2.3"` comes back as status `updated` with version `"1.3.0"`. -/
theorem create_yaml_file_version_transition_witness :
    (create_yaml_file
        { id := some "m1", display_name := some "M One", type := some "chat",
          context_length := some 8192 } "out"
        [("m1", { hash := "old-hash", version := "1.2.3", filename := "m-one.yaml",
                  display_name := "M One" })]).result =
      some { filepath := "out/m-one.yaml", display_name := "M One",
             roles := ["apply", "chat", "edit"], model_type := "chat",
             status := "updated", version := "1.3.0" }
    ∧ ({ filepath := "out/m-one.yaml", display_name := "M One",
         roles := ["apply", "chat", "edit"], model_type := "chat",
         status := "updated", version := "1.3.0" } : CreateResult).status = "updated"
    ∧ ({ filepath := "out/m-one.yaml", display_name := "M One",
         roles := ["apply", "chat", "edit"], model_type := "chat",
         status := "updated", version := "1.3.0" } : CreateResult).version = "1.3.0" := by
  have hres : (create_yaml_file
      { id := some "m1", display_name := some "M One", type := some "chat",
        context_length := some 8192 } "out"
      [("m1", { hash := "old-hash", version := "1.2.3", filename := "m-one.yaml",
                display_name := "M One" })]).result =
      some { filepath := "out/m-one.yaml", display_name := "M One",
             roles := ["apply", "chat", "edit"], model_type := "chat",
             status := "updated", version := "1.3.0" } := by decide
  have h := create_yaml_file_version_transition
    { id := some "m1", display_name := some "M One", type := some "chat",
      context_length := some 8192 } "out"
    [("m1", { hash := "old-hash", version := "1.2.3", filename := "m-one.yaml",
              display_name := "M One" })]
    { filepath := "out/m-one.yaml", display_name := "M One",
      roles := ["apply", "chat", "edit"], model_type := "chat",
      status := "updated", version := "1.3.0" } hres
  have h2 := (h.2 { hash := "old-hash", version := "1.2.3", filename := "m-one.yaml",
                    display_name := "M One" } (by decide)).2 (by decide)
  refine ⟨hres, h2.1, ?_⟩
  have h3 := h2.2 { major := 1, minor := 2, patch := 3 } (by decide)
  rw [h3]
  decide

/-- C7: the validation step and the document write of `create_yaml_file` run
only when the ledger transition yields status `created` or `updated`; when it
yields `unchanged`, nothing is validated and nothing is written. -/
theorem create_yaml_file_unchanged_no_write
    (model_data : ModelRecord) (output_dir : String) (version_cache : Cache) :
    (((create_yaml_file model_data output_dir version_cache).validated = true
        ∨ (create_yaml_file model_data output_dir version_cache).wrote = true) →
      ((version_status version_cache (model_data.id.getD "")
          (generate_model_hash model_data)).2 = "created"
        ∨ (version_status version_cache (model_data.id.getD "")
            (generate_model_hash model_data)).2 = "updated"))
    ∧ ((version_status version_cache (model_data.id.getD "")
          (generate_model_hash model_data)).2 = "unchanged" →
        (create_yaml_file model_data output_dir version_cache).validated = false
        ∧ (create_yaml_file model_data output_dir version_cache).wrote = false) := by
  constructor
  · intro h
    rcases version_status_cases version_cache (model_data.id.getD "")
        (generate_model_hash model_data) with hc | hc | hc
    · exact Or.inl hc
    · exfalso
      simp only [create_yaml_file] at h
      split_ifs at h with h1 h2 h3
      · simp at h
      · simp at h
      · exact h3 hc
      · simp at h
    · exact Or.inr hc
  · intro hc
    simp only [create_yaml_file]
    split_ifs with h1 h2 h3
    · exact ⟨rfl, rfl⟩
    · exact ⟨rfl, rfl⟩
    · exact absurd hc h3
    · exact ⟨rfl, rfl⟩

/-- Witness for C7: a cached record with an unchanged fingerprint is neither
validated nor written. -/
theorem create_yaml_file_unchanged_no_write_witness :
    (create_yaml_file
        { id := some "m1", display_name := some "M One", type := some "chat",
          context_length := some 8192 } "out"
        [("m1", { hash := generate_model_hash
                    { id := some "m1", display_name := some "M One", type := some "chat",
                      context_length := some 8192 },
                  version := "1.0.0", filename := "m-one.yaml",
                  display_name := "M One" })]).validated = false
    ∧ (create_yaml_file
        { id := some "m1", display_name := some "M One", type := some "chat",
          context_length := some 8192 } "out"
        [("m1", { hash := generate_model_hash
                    { id := some "m1", display_name := some "M One", type := some "chat",
                      context_length := some 8192 },
                  version := "1.0.0", filename := "m-one.yaml",
                  display_name := "M One" })]).wrote = false :=
  (create_yaml_file_unchanged_no_write
    { id := some "m1", display_name := some "M One", type := some "chat",
      context_length := some 8192 } "out"
    [("m1", { hash := generate_model_hash
                { id := some "m1", display_name := some "M One", type := some "chat",
                  context_length := some 8192 },
              version := "1.0.0", filename := "m-one.yaml",
              display_name := "M One" })]).2 (by decide)

/-- C10: whenever `create_yaml_file` abandons generation and returns no
result, the version cache is left exactly as it was and no file is written;
and it returns no result exactly when the display name is empty, the id is
empty, or the status is not `unchanged` and the assembled document fails
validation. -/
theorem create_yaml_file_skip_atomic
    (model_data : ModelRecord) (output_dir : String) (version_cache : Cache) :
    ((create_yaml_file model_data output_dir version_cache).result = none →
        (create_yaml_file model_data output_dir version_cache).version_cache = version_cache
        ∧ (create_yaml_file model_data output_dir version_cache).wrote = false)
    ∧ ((create_yaml_file model_data output_dir version_cache).result = none ↔
        (model_data.display_name.getD "" = "" ∨ model_data.id.getD "" = ""
          ∨ ((version_status version_cache (model_data.id.getD "")
                (generate_model_hash model_data)).2 ≠ "unchanged"
              ∧ validate_yaml_content
                  (build_yaml_content (model_data.display_name.getD "")
                    (version_status version_cache (model_data.id.getD "")
                      (generate_model_hash model_data)).1
                    (model_data.id.getD "") (model_data.context_length.getD 0)
                    (determine_roles model_data)) ≠ none))) := by
  simp only [create_yaml_file]
  split_ifs with h1 h2 h3
  · simp [h1]
  · simp [h1, h2]
  · split
    · rename_i errs heq
      simp [h1, h2, h3, heq]
    · rename_i heq
      simp [h1, h2, h3, heq]
  · simp only [ne_eq, not_not] at h3
    simp [h1, h2, h3]

/-- Witness for C10: a record with no display name is skipped and the cache
is untouched. -/
theorem create_yaml_file_skip_atomic_witness :
    (create_yaml_file ({} : ModelRecord) "out" []).version_cache = ([] : Cache)
    ∧ (create_yaml_file ({} : ModelRecord) "out" []).wrote = false :=
  (create_yaml_file_skip_atomic ({} : ModelRecord) "out" []).1 (by decide)

theorem mem_collapseRuns (t : Char) : ∀ (l : List Char) (c : Char),
    c ∈ collapseRuns t l → c ∈ l := by
  intro l
  induction l with
  | nil => intro c hc; simp [collapseRuns] at hc
  | cons a rest ih =>
    intro c hc
    cases rest with
    | nil => simpa [collapseRuns] using hc
    | cons b rest2 =>
      simp only [collapseRuns] at hc
      split_ifs at hc with h
      · exact List.mem_cons_of_mem a (ih c hc)
      · rcases List.mem_cons.mp hc with rfl | hc
        · exact List.mem_cons_self _ _
        · exact List.mem_cons_of_mem a (ih c hc)

theorem mem_rstripDashUnderscore {c : Char} {l : List Char}
    (h : c ∈ rstripDashUnderscore l) : c ∈ l := by
  unfold rstripDashUnderscore at h
  rw [List.mem_reverse] at h
  exact List.mem_reverse.mp ((List.dropWhile_sublist _).subset h)

theorem head?_dropWhile_not (p : Char → Bool) : ∀ (l : List Char) (c : Char),
    (l.dropWhile p).head? = some c → p c = false := by
  intro l
  induction l with
  | nil => intro c h; simp [List.dropWhile] at h
  | cons a rest ih =>
    intro c h
    rw [List.dropWhile_cons] at h
    split_ifs at h with hpa
    · exact ih c h
    · simp only [List.head?_cons, Option.some.injEq] at h
      subst h
      exact Bool.eq_false_iff.mpr hpa

theorem getLast?_rstripDashUnderscore (l : List Char) (c : Char)
    (h : (rstripDashUnderscore l).getLast? = some c) : (c = '-' || c = '_') = false := by
  unfold rstripDashUnderscore at h
  rw [List.getLast?_reverse] at h
  exact head?_dropWhile_not _ _ c h

/-- C9: the sanitizer maps `"Gemma-2 Instruct (9B)"` to
`"gemma-2-instruct-9b"` and `"Mistral (7B) Instruct v0.2"` to
`"mistral-7b-instruct-v0.2"`, maps the empty name to the empty token, and for
every name produces only word characters, hyphens and dots (with underscores
counting as word characters), with no trailing hyphen or underscore. -/
theorem sanitize_filename_spec :
    sanitize_filename "Gemma-2 Instruct (9B)" = "gemma-2-instruct-9b"
    ∧ sanitize_filename "Mistral (7B) Instruct v0.2" = "mistral-7b-instruct-v0.2"
    ∧ sanitize_filename "" = ""
    ∧ (∀ name : String,
        ((sanitize_filename name).data.all
          (fun c => isWordChar c || c = '-' || c = '.')) = true)
    ∧ (∀ name : String,
        ((sanitize_filename name).data.getLast?.all
          (fun c => !(c = '-' || c = '_'))) = true) := by
  refine ⟨by decide, by decide, by decide, ?_, ?_⟩
  · intro name
    rw [List.all_eq_true]
    intro c hc
    simp only [sanitize_filename] at hc
    have hc2 := mem_collapseRuns '_' _ c
      (mem_collapseRuns '-' _ c (mem_rstripDashUnderscore hc))
    rcases List.mem_map.mp hc2 with ⟨d, _, rfl⟩
    by_cases hd : (isWordChar d || d = '-' || d = '.') = true
    · rw [if_pos hd]
      exact hd
    · rw [if_neg hd]
      decide
  · intro name
    cases hlast : (sanitize_filename name).data.getLast? with
    | none => rfl
    | some c =>
      simp only [sanitize_filename] at hlast
      have := getLast?_rstripDashUnderscore _ c hlast
      simp [Option.all, this]

/-- Witness for C1 at a concrete chat record with context length 8192. -/
theorem apply_role_iff_witness :
    "apply" ∈ determine_roles
        ({ type := some "chat", context_length := some 8192 } : ModelRecord) ↔
      (((({ type := some "chat", context_length := some 8192 } : ModelRecord)).type.getD "" = "chat"
        ∨ (({ type := some "chat", context_length := some 8192 } : ModelRecord)).type.getD "" = "language")
        ∧ 8192 ≤ (({ type := some "chat", context_length := some 8192 } : ModelRecord)).context_length.getD 0) :=
  apply_role_iff { type := some "chat", context_length := some 8192 }

/-- Witness for C5 at a concrete image-type record whose display name is
allowlisted. -/
theorem autocomplete_role_iff_witness :
    "autocomplete" ∈ determine_roles
        ({ type := some "image", display_name := some "Mistral (7B)" } : ModelRecord) ↔
      ((({ type := some "image", display_name := some "Mistral (7B)" } : ModelRecord)).display_name.getD ""
          ∈ AUTOCOMPLETE_MODELS
        ∨ (({ type := some "image", display_name := some "Mistral (7B)" } : ModelRecord)).id.getD ""
          ∈ AUTOCOMPLETE_MODELS) :=
  autocomplete_role_iff { type := some "image", display_name := some "Mistral (7B)" }

/-- Witness for C9: the first concrete sanitizer example. -/
theorem sanitize_filename_spec_witness :
    sanitize_filename "Gemma-2 Instruct (9B)" = "gemma-2-instruct-9b" :=
  sanitize_filename_spec.1

end TogetherModels
